import Mathlib

/-!
Shallow embedding of `src/generate_icon.py`, a straight-line script that
renders a 1024x1024 clock-face app icon with PIL and saves it to a fixed
path.  The embedding mirrors the source top to bottom:

* fixed constants (`size`, `center`, `clock_radius`, the colors);
* the per-row gradient color computation (lines 11-17), with Python's
  float arithmetic replaced by exact rationals — for these particular
  constants every intermediate float is either exactly representable or
  at distance at least `1/1024` from the nearest integer, far above the
  float rounding error, so `int(...)` truncation agrees with the exact
  rational truncation modelled by `pyInt`;
* the drawing geometry (clock face, hour markers, hands, hub) over `ℝ`
  with `Real.cos`/`Real.sin` for `math.cos`/`math.sin` (lines 19-61);
* a raster semantics: a `Canvas` is a total pixel function, each drawing
  step overwrites the pixels its primitive covers and is clipped to the
  canvas (lines 7-61);
* the control flow of the text-overlay step (lines 63-94): the nested
  font `try/except` cascade, the bounding-box measurement, the two text
  draws, and the outer exception handler, parametrised by a `FontEnv`
  describing the environment-dependent outcomes (which font files load,
  what the font reports as the text bounding box, which PIL calls raise);
* the final save and the messages printed (lines 96-99).
-/

/-! ### Fixed constants (source lines 5-8, 20-21, 29, 45, 52, 66, 86, 97) -/

def size : ℤ := 1024

def center : ℤ := size / 2

def clock_radius : ℤ := 380

def Color : Type := ℤ × ℤ × ℤ

def white : Color := (255, 255, 255)

def marker_color : Color := (255, 102, 77)

def hour_color : Color := (51, 51, 51)

def minute_color : Color := (77, 77, 77)

def output_path : String := "/Users/jamilkabir/Desktop/code/apple/iphone/ADHDTimerApp/ADHDTimerApp/Assets.xcassets/AppIcon.appiconset/AppIcon.png"

/-! ### Gradient background, source lines 11-17 -/

/-- Python's `int(...)` on a real value: truncation toward zero. -/
def pyInt (q : ℚ) : ℤ := if 0 ≤ q then ⌊q⌋ else ⌈q⌉

/-- `ratio = y / size` (source line 13). -/
def rowFrac (y : ℤ) : ℚ := (y : ℚ) / ((size : ℚ))

/-- The color painted on row `y` (source lines 14-16):
`r = int(255 * (1.0 - ratio * 0.2))`, `g = int((76 + ratio * 100))`,
`b = int((76 + ratio * 50))`. -/
def gradColor (y : ℤ) : Color :=
  (pyInt (255 * (1 - rowFrac y * 0.2)),
   pyInt (76 + rowFrac y * 100),
   pyInt (76 + rowFrac y * 50))

/-- The color formula as the specification states it, for the refinement
check of the gradient step: `(int(255*(1 - 0.2*(y/1024))),
int(76 + 100*(y/1024)), int(76 + 50*(y/1024)))`. -/
def gradColorClaimed (y : ℤ) : Color :=
  (pyInt (255 * (1 - 0.2 * ((y : ℚ) / 1024))),
   pyInt (76 + 100 * ((y : ℚ) / 1024)),
   pyInt (76 + 50 * ((y : ℚ) / 1024)))

/-! ### Raster semantics -/

/-- A canvas is a total assignment of colors to integer pixel coordinates;
drawing is clipped to the pixels satisfying `inCanvas`. -/
def Canvas : Type := ℤ → ℤ → Color

/-- The pixel grid of the 1024x1024 image. -/
def inCanvas (x y : ℤ) : Prop := 0 ≤ x ∧ x < size ∧ 0 ≤ y ∧ y < size

instance (x y : ℤ) : Decidable (inCanvas x y) := by
  unfold inCanvas; infer_instance

/-- `Image.new('RGB', (size, size))` (source line 7): all pixels black. -/
def initCanvas : Canvas := fun _ _ => (0, 0, 0)

/-- The gradient loop (source lines 11-17): row `y` of the canvas is
painted `gradColor y`; the horizontal line primitive spans the whole row,
so every in-canvas pixel of the row is overwritten. -/
def gradientStep (c : Canvas) : Canvas := fun x y =>
  if inCanvas x y then gradColor y else c x y

/-- The white clock-face disk (source lines 22-26): every in-canvas pixel
within `clock_radius` of the center is painted white. -/
def faceStep (c : Canvas) : Canvas := fun x y =>
  if inCanvas x y ∧ (x - center) ^ 2 + (y - center) ^ 2 ≤ clock_radius ^ 2
  then white else c x y

/-- The center-hub disk (source lines 58-61): every in-canvas pixel within
radius 40 of the center is painted `marker_color`. -/
def hubStep (c : Canvas) : Canvas := fun x y =>
  if inCanvas x y ∧ (x - center) ^ 2 + (y - center) ^ 2 ≤ 40 ^ 2
  then marker_color else c x y

/-! ### Claims about the gradient colors -/

lemma pyInt_of_nonneg {q : ℚ} (h : 0 ≤ q) : pyInt q = ⌊q⌋ := if_pos h

lemma le_pyInt {z : ℤ} {q : ℚ} (hq : 0 ≤ q) (h : (z : ℚ) ≤ q) :
    z ≤ pyInt q := by
  rw [pyInt_of_nonneg hq]
  exact Int.le_floor.mpr h

lemma pyInt_le {z : ℤ} {q : ℚ} (hq : 0 ≤ q) (h : q ≤ (z : ℚ)) :
    pyInt q ≤ z := by
  rw [pyInt_of_nonneg hq]
  calc ⌊q⌋ ≤ ⌊(z : ℚ)⌋ := Int.floor_le_floor h
  _ = z := Int.floor_intCast z

/-- C1: the gradient step paints every in-canvas pixel of row `y` the
color given by the spec formula
`(int(255*(1 - 0.2*(y/1024))), int(76 + 100*(y/1024)), int(76 + 50*(y/1024)))`,
a function of `y` alone, independent of the prior canvas contents and of
all other rows. -/
theorem gradient_row_color_matches_spec (c : Canvas) (x y : ℤ)
    (h : inCanvas x y) : gradientStep c x y = gradColorClaimed y := by
  unfold gradientStep
  rw [if_pos h]
  unfold gradColor gradColorClaimed
  have hfrac : rowFrac y = (y : ℚ) / 1024 := by
    unfold rowFrac size; norm_num
  have h1 : (255 : ℚ) * (1 - rowFrac y * 0.2)
      = 255 * (1 - 0.2 * ((y : ℚ) / 1024)) := by rw [hfrac]; ring
  have h2 : (76 : ℚ) + rowFrac y * 100 = 76 + 100 * ((y : ℚ) / 1024) := by
    rw [hfrac]; ring
  have h3 : (76 : ℚ) + rowFrac y * 50 = 76 + 50 * ((y : ℚ) / 1024) := by
    rw [hfrac]; ring
  rw [h1, h2, h3]

theorem gradient_row_color_matches_spec_witness :
    inCanvas 0 0 ∧ gradientStep initCanvas 0 0 = gradColorClaimed 0 :=
  ⟨by decide, gradient_row_color_matches_spec initCanvas 0 0 (by decide)⟩

/-- C10: for every row `y` in `[0, 1024)` the three gradient channel
values already lie in the valid color range — `r ∈ [204, 255]`,
`g ∈ [76, 176]`, `b ∈ [76, 126]` — so no channel is negative or exceeds
255 and no clamping is needed. -/
theorem gradient_channels_in_range (y : ℤ) (h0 : 0 ≤ y) (h1 : y < 1024) :
    204 ≤ (gradColor y).1 ∧ (gradColor y).1 ≤ 255 ∧
    76 ≤ (gradColor y).2.1 ∧ (gradColor y).2.1 ≤ 176 ∧
    76 ≤ (gradColor y).2.2 ∧ (gradColor y).2.2 ≤ 126 := by
  have hq0 : (0 : ℚ) ≤ (y : ℚ) := by exact_mod_cast h0
  have hq1 : (y : ℚ) ≤ 1023 := by exact_mod_cast Int.lt_add_one_iff.mp h1
  have hfrac : rowFrac y = (y : ℚ) / 1024 := by
    unfold rowFrac size; norm_num
  unfold gradColor
  rw [hfrac]
  refine ⟨?_, ?_, ?_, ?_, ?_, ?_⟩
  · exact le_pyInt (by norm_num; linarith) (by norm_num; linarith)
  · exact pyInt_le (by norm_num; linarith) (by norm_num; linarith)
  · exact le_pyInt (by positivity) (by norm_num; linarith)
  · exact pyInt_le (by positivity) (by norm_num; linarith)
  · exact le_pyInt (by positivity) (by norm_num; linarith)
  · exact pyInt_le (by positivity) (by norm_num; linarith)

theorem gradient_channels_in_range_witness :
    0 ≤ (0 : ℤ) ∧ (0 : ℤ) < 1024 ∧ 204 ≤ (gradColor 0).1 :=
  ⟨le_refl 0, by decide, (gradient_channels_in_range 0 (le_refl 0) (by decide)).1⟩

/-! ### Drawing geometry over the reals (source lines 19-61) -/

/-- `math.radians` (degrees to radians). -/
noncomputable def radians (d : ℝ) : ℝ := d * Real.pi / 180

/-- A `draw.line` call: two endpoints, a width and a fill color. -/
structure LineCmd where
  p1 : ℝ × ℝ
  p2 : ℝ × ℝ
  w : ℝ
  col : Color

/-- The point a fraction `t ∈ [0,1]` of the way from `a` to `b`: the line
primitive drawn between `a` and `b` is exactly the set of these points. -/
def seg (a b : ℝ × ℝ) (t : ℝ) : ℝ × ℝ :=
  ((1 - t) * a.1 + t * b.1, (1 - t) * a.2 + t * b.2)

/-- The row-`y` gradient line `draw.line([(0, y), (size, y)], ...)`
(source line 17); PIL's default line width is used. -/
def gradientLine (y : ℤ) : LineCmd :=
  ⟨(0, (y : ℝ)), ((size : ℝ), (y : ℝ)), 0, gradColor y⟩

/-- `angle = math.radians(i * 30 - 90)` (source line 31). -/
noncomputable def marker_angle (i : ℕ) : ℝ := radians ((i : ℝ) * 30 - 90)

/-- `outer_radius = clock_radius - 30` (source line 32). -/
def outer_radius : ℝ := (clock_radius : ℝ) - 30

/-- `inner_radius = clock_radius - 80` (source line 33). -/
def inner_radius : ℝ := (clock_radius : ℝ) - 80

/-- The `i`-th hour-marker line (source lines 35-40): from the point at
`outer_radius` to the point at `inner_radius` along `marker_angle i`,
width 20, color `marker_color`. -/
noncomputable def markerCmd (i : ℕ) : LineCmd :=
  ⟨((center : ℝ) + outer_radius * Real.cos (marker_angle i),
    (center : ℝ) + outer_radius * Real.sin (marker_angle i)),
   ((center : ℝ) + inner_radius * Real.cos (marker_angle i),
    (center : ℝ) + inner_radius * Real.sin (marker_angle i)),
   20, marker_color⟩

/-- `hour_angle = math.radians(10 * 30 - 90)` (source line 44). -/
noncomputable def hour_angle : ℝ := radians (10 * 30 - 90)

def hour_length : ℝ := 180

/-- `hour_x = center + hour_length * math.cos(hour_angle)` (line 46). -/
noncomputable def hour_x : ℝ := (center : ℝ) + hour_length * Real.cos hour_angle

/-- `hour_y = center + hour_length * math.sin(hour_angle)` (line 47). -/
noncomputable def hour_y : ℝ := (center : ℝ) + hour_length * Real.sin hour_angle

/-- The hour-hand line (source line 48). -/
noncomputable def hourCmd : LineCmd :=
  ⟨((center : ℝ), (center : ℝ)), (hour_x, hour_y), 30, hour_color⟩

/-- `minute_angle = math.radians(10 - 90)` (source line 51). -/
noncomputable def minute_angle : ℝ := radians (10 - 90)

def minute_length : ℝ := 260

noncomputable def minute_x : ℝ :=
  (center : ℝ) + minute_length * Real.cos minute_angle

noncomputable def minute_y : ℝ :=
  (center : ℝ) + minute_length * Real.sin minute_angle

/-- The minute-hand line (source line 55). -/
noncomputable def minuteCmd : LineCmd :=
  ⟨((center : ℝ), (center : ℝ)), (minute_x, minute_y), 24, minute_color⟩

/-! ### Raster semantics of the wide-line draws -/

/-- Pixel `(x, y)` is covered by the width-`w` stroke of the segment from
`a` to `b` when it is within `w/2` of some point of the segment. -/
def onStroke (a b : ℝ × ℝ) (w : ℝ) (x y : ℤ) : Prop :=
  ∃ t : ℝ, 0 ≤ t ∧ t ≤ 1 ∧
    ((x : ℝ) - (seg a b t).1) ^ 2 + ((y : ℝ) - (seg a b t).2) ^ 2 ≤ (w / 2) ^ 2

open Classical in
/-- Rasterize one `draw.line` call: overwrite the in-canvas pixels the
stroke covers. -/
noncomputable def strokeStep (l : LineCmd) (c : Canvas) : Canvas := fun x y =>
  if inCanvas x y ∧ onStroke l.p1 l.p2 l.w x y then l.col else c x y

/-- The hour-marker loop (source lines 30-40), markers 0 to 11 in order. -/
noncomputable def markersStep (c : Canvas) : Canvas :=
  (List.range 12).foldl (fun acc i => strokeStep (markerCmd i) acc) c

noncomputable def hourStep : Canvas → Canvas := strokeStep hourCmd

noncomputable def minuteStep : Canvas → Canvas := strokeStep minuteCmd

/-- The canvas after all the clock elements, in source order (lines 7-61):
gradient, face, markers, hour hand, minute hand, hub — the state the
text-overlay step starts from. -/
noncomputable def clockCanvas : Canvas :=
  hubStep (minuteStep (hourStep (markersStep (faceStep (gradientStep initCanvas)))))

/-- C8: the hub is drawn after both hands, so on the canvas the text step
starts from, every in-canvas pixel within radius 40 of the center holds
the hub color `(255, 102, 77)`, whatever the hand draws put there
before. -/
theorem hub_covers_center_after_hands (x y : ℤ) (h : inCanvas x y)
    (hd : (x - center) ^ 2 + (y - center) ^ 2 ≤ 40 ^ 2) :
    clockCanvas x y = marker_color := by
  unfold clockCanvas hubStep
  exact if_pos ⟨h, hd⟩

theorem hub_covers_center_after_hands_witness :
    inCanvas 512 512 ∧
    ((512 : ℤ) - center) ^ 2 + ((512 : ℤ) - center) ^ 2 ≤ 40 ^ 2 ∧
    clockCanvas 512 512 = marker_color :=
  ⟨by decide, by decide, hub_covers_center_after_hands 512 512 (by decide) (by decide)⟩

/-! ### Hour-hand endpoint (C2) and hour markers (C4) -/

lemma center_cast : ((center : ℤ) : ℝ) = 512 := by norm_num [center, size]

lemma hour_angle_eq : hour_angle = Real.pi / 6 + Real.pi := by
  unfold hour_angle radians; ring

lemma cos_hour_angle : Real.cos hour_angle = -(Real.sqrt 3 / 2) := by
  rw [hour_angle_eq, Real.cos_add_pi, Real.cos_pi_div_six]

lemma sin_hour_angle : Real.sin hour_angle = -(1 / 2) := by
  rw [hour_angle_eq, Real.sin_add_pi, Real.sin_pi_div_six]

lemma hour_x_eq : hour_x = 512 - 90 * Real.sqrt 3 := by
  unfold hour_x hour_length
  rw [center_cast, cos_hour_angle]; ring

lemma hour_y_eq : hour_y = 422 := by
  unfold hour_y hour_length
  rw [center_cast, sin_hour_angle]; norm_num

/-- C2, counterexample: the code's hour-hand endpoint has
`hour_y = 512 + 180 * sin(210°) = 422` exactly, so the claimed
approximation `(357.9, 602.0)` is false even at tolerance 1: `sin 210°`
is `-1/2`, not `+1/2`. -/
theorem hour_hand_claimed_approx_false :
    hour_y = 422 ∧ ¬(|hour_x - 357.9| ≤ 1 ∧ |hour_y - 602| ≤ 1) := by
  refine ⟨hour_y_eq, fun h => ?_⟩
  have h2 := h.2
  rw [hour_y_eq, abs_le] at h2
  linarith [h2.1]

/-- C2, amended: the hour-hand endpoint for the fixed constants is
`(512 + 180*cos(210°), 512 + 180*sin(210°))` as the claim's formula says,
but its value is `(512 - 90*√3, 422)`, approximately `(356.1, 422.0)` —
within `1/20` on the x-coordinate and exact on the y-coordinate — not the
claimed `(357.9, 602.0)`. -/
theorem hour_hand_endpoint_exact :
    hour_x = 512 + 180 * Real.cos (radians 210) ∧
    hour_y = 512 + 180 * Real.sin (radians 210) ∧
    hour_x = 512 - 90 * Real.sqrt 3 ∧
    |hour_x - 356.1| ≤ 1 / 20 ∧
    hour_y = 422 := by
  have h210 : radians 210 = hour_angle := by unfold hour_angle; norm_num
  have hs_lo : (1.7317 : ℝ) < Real.sqrt 3 := by
    rw [Real.lt_sqrt (by norm_num)]; norm_num
  have hs_hi : Real.sqrt 3 < (1.7321 : ℝ) := by
    rw [Real.sqrt_lt' (by norm_num)]; norm_num
  refine ⟨?_, ?_, hour_x_eq, ?_, hour_y_eq⟩
  · rw [h210]; unfold hour_x hour_length; rw [center_cast]
  · rw [h210]; unfold hour_y hour_length; rw [center_cast]
  · rw [hour_x_eq, abs_le]
    constructor <;> [linarith; linarith]

/-- C4: each of the 12 hour markers is a width-20 line in color
`(255, 102, 77)` from the point at radius 350 to the point at radius 300
from the center along angle `i*30° - 90°`; consecutive markers are
exactly 30° apart, and every point of every marker segment lies within
the circle of radius 380 around `(512, 512)`. -/
theorem hour_markers_spec (i : ℕ) (_hi : i < 12) :
    (markerCmd i).w = 20 ∧
    (markerCmd i).col = (255, 102, 77) ∧
    outer_radius = 350 ∧
    inner_radius = 300 ∧
    (markerCmd i).p1
      = (512 + 350 * Real.cos (marker_angle i), 512 + 350 * Real.sin (marker_angle i)) ∧
    (markerCmd i).p2
      = (512 + 300 * Real.cos (marker_angle i), 512 + 300 * Real.sin (marker_angle i)) ∧
    marker_angle i = radians ((i : ℝ) * 30 - 90) ∧
    marker_angle (i + 1) - marker_angle i = radians 30 ∧
    ∀ t : ℝ, 0 ≤ t → t ≤ 1 →
      ((seg (markerCmd i).p1 (markerCmd i).p2 t).1 - 512) ^ 2 +
        ((seg (markerCmd i).p1 (markerCmd i).p2 t).2 - 512) ^ 2 ≤ 380 ^ 2 := by
  have ho : outer_radius = 350 := by norm_num [outer_radius, clock_radius]
  have hin : inner_radius = 300 := by norm_num [inner_radius, clock_radius]
  have hp1 : (markerCmd i).p1
      = (512 + 350 * Real.cos (marker_angle i), 512 + 350 * Real.sin (marker_angle i)) := by
    simp [markerCmd, center_cast, ho]
  have hp2 : (markerCmd i).p2
      = (512 + 300 * Real.cos (marker_angle i), 512 + 300 * Real.sin (marker_angle i)) := by
    simp [markerCmd, center_cast, hin]
  refine ⟨rfl, rfl, ho, hin, hp1, hp2, rfl, ?_, ?_⟩
  · unfold marker_angle radians; push_cast; ring
  · intro t ht0 ht1
    have e1 : (seg (markerCmd i).p1 (markerCmd i).p2 t).1 - 512
        = (350 - 50 * t) * Real.cos (marker_angle i) := by
      rw [hp1, hp2]; show (1 - t) * _ + t * _ - 512 = _; ring
    have e2 : (seg (markerCmd i).p1 (markerCmd i).p2 t).2 - 512
        = (350 - 50 * t) * Real.sin (marker_angle i) := by
      rw [hp1, hp2]; show (1 - t) * _ + t * _ - 512 = _; ring
    rw [e1, e2]
    have hsq : ((350 - 50 * t) * Real.cos (marker_angle i)) ^ 2 +
        ((350 - 50 * t) * Real.sin (marker_angle i)) ^ 2
        = (350 - 50 * t) ^ 2 *
          (Real.sin (marker_angle i) ^ 2 + Real.cos (marker_angle i) ^ 2) := by
      ring
    rw [hsq, Real.sin_sq_add_cos_sq, mul_one]
    nlinarith [mul_nonneg ht0 (sub_nonneg.mpr ht1)]

theorem hour_markers_spec_witness :
    (0 : ℕ) < 12 ∧ (markerCmd 0).w = 20 ∧ (0 : ℝ) ≤ 0 ∧ (0 : ℝ) ≤ 1 ∧
    ((seg (markerCmd 0).p1 (markerCmd 0).p2 0).1 - 512) ^ 2 +
      ((seg (markerCmd 0).p1 (markerCmd 0).p2 0).2 - 512) ^ 2 ≤ 380 ^ 2 :=
  ⟨by decide, (hour_markers_spec 0 (by decide)).1, le_refl 0, zero_le_one,
   (hour_markers_spec 0 (by decide)).2.2.2.2.2.2.2.2 0 (le_refl 0) zero_le_one⟩

/-! ### Canvas-bounds invariant (C6) -/

/-- `text_x = (size - text_width) // 2` (source line 82); Python `//` is
floor division. -/
def text_x (tw : ℤ) : ℤ := Int.fdiv (size - tw) 2

/-- `text_y = size - 200` (source line 83). -/
def text_y : ℤ := size - 200

/-- `shadow_offset = 8` (source line 86). -/
def shadow_offset : ℤ := 8

/-- C6, counterexample: the gradient row primitives
`draw.line([(0, y), (size, y)])` end at x-coordinate `size = 1024`,
which is not inside the half-open range `[0, 1024)`, so not every
primitive stays within `[0, 1024)` in both coordinates. -/
theorem primitive_bounds_claim_false :
    (gradientLine 0).p2.1 = 1024 ∧ ¬((gradientLine 0).p2.1 < 1024) := by
  have e : (gradientLine 0).p2.1 = 1024 := by
    show ((size : ℤ) : ℝ) = 1024
    norm_num [size]
  exact ⟨e, by rw [e]; exact lt_irrefl 1024⟩

lemma disk_bounds {x y r : ℝ} (hr0 : 0 ≤ r) (hr : r ≤ 380)
    (h : (x - 512) ^ 2 + (y - 512) ^ 2 ≤ r ^ 2) :
    0 ≤ x ∧ x < 1024 ∧ 0 ≤ y ∧ y < 1024 := by
  have hr2 : r ^ 2 ≤ 380 ^ 2 := by nlinarith
  have hx2 : (x - 512) ^ 2 ≤ 380 ^ 2 := by nlinarith [sq_nonneg (y - 512)]
  have hy2 : (y - 512) ^ 2 ≤ 380 ^ 2 := by nlinarith [sq_nonneg (x - 512)]
  refine ⟨?_, ?_, ?_, ?_⟩
  · nlinarith [hx2, sq_nonneg x]
  · nlinarith [hx2, sq_nonneg (x - 1024)]
  · nlinarith [hy2, sq_nonneg y]
  · nlinarith [hy2, sq_nonneg (y - 1024)]

lemma radial_point_bounds {L c : ℝ} (hL0 : 0 ≤ L) (hL : L ≤ 380)
    (hc1 : -1 ≤ c) (hc2 : c ≤ 1) :
    0 ≤ 512 + L * c ∧ 512 + L * c < 1024 := by
  constructor
  · nlinarith [mul_le_mul_of_nonneg_left hc1 hL0]
  · nlinarith [mul_le_mul_of_nonneg_left hc2 hL0]

lemma markerCmd_p1_eq (i : ℕ) : (markerCmd i).p1
    = (512 + 350 * Real.cos (marker_angle i), 512 + 350 * Real.sin (marker_angle i)) := by
  have ho : outer_radius = 350 := by norm_num [outer_radius, clock_radius]
  simp [markerCmd, center_cast, ho]

lemma markerCmd_p2_eq (i : ℕ) : (markerCmd i).p2
    = (512 + 300 * Real.cos (marker_angle i), 512 + 300 * Real.sin (marker_angle i)) := by
  have hin : inner_radius = 300 := by norm_num [inner_radius, clock_radius]
  simp [markerCmd, center_cast, hin]

/-- C6, amended: every fixed-geometry primitive the script draws —
gradient row lines, the clock-face disk, the 12 marker segments, the two
hand segments and the hub disk — has all its points inside the closed
square `[0, 1024] × [0, 1024]`; all of them except the gradient rows'
right endpoints (which sit exactly at `x = 1024`) lie in the half-open
square `[0, 1024) × [0, 1024)`.  The text draws are excluded: their
extent depends on the font environment, and they stay within the canvas
only under bounds on the measured text box (last conjunct).  No runtime
check enforces any of this. -/
theorem fixed_primitives_within_bounds :
    (∀ y : ℤ, 0 ≤ y → y < 1024 → ∀ t : ℝ, 0 ≤ t → t ≤ 1 →
      0 ≤ (seg (gradientLine y).p1 (gradientLine y).p2 t).1 ∧
      (seg (gradientLine y).p1 (gradientLine y).p2 t).1 ≤ 1024 ∧
      0 ≤ (seg (gradientLine y).p1 (gradientLine y).p2 t).2 ∧
      (seg (gradientLine y).p1 (gradientLine y).p2 t).2 < 1024) ∧
    (∀ x y : ℝ, (x - 512) ^ 2 + (y - 512) ^ 2 ≤ ((clock_radius : ℤ) : ℝ) ^ 2 →
      0 ≤ x ∧ x < 1024 ∧ 0 ≤ y ∧ y < 1024) ∧
    (∀ i : ℕ, i < 12 → ∀ t : ℝ, 0 ≤ t → t ≤ 1 →
      0 ≤ (seg (markerCmd i).p1 (markerCmd i).p2 t).1 ∧
      (seg (markerCmd i).p1 (markerCmd i).p2 t).1 < 1024 ∧
      0 ≤ (seg (markerCmd i).p1 (markerCmd i).p2 t).2 ∧
      (seg (markerCmd i).p1 (markerCmd i).p2 t).2 < 1024) ∧
    (∀ t : ℝ, 0 ≤ t → t ≤ 1 →
      0 ≤ (seg hourCmd.p1 hourCmd.p2 t).1 ∧
      (seg hourCmd.p1 hourCmd.p2 t).1 < 1024 ∧
      0 ≤ (seg hourCmd.p1 hourCmd.p2 t).2 ∧
      (seg hourCmd.p1 hourCmd.p2 t).2 < 1024) ∧
    (∀ t : ℝ, 0 ≤ t → t ≤ 1 →
      0 ≤ (seg minuteCmd.p1 minuteCmd.p2 t).1 ∧
      (seg minuteCmd.p1 minuteCmd.p2 t).1 < 1024 ∧
      0 ≤ (seg minuteCmd.p1 minuteCmd.p2 t).2 ∧
      (seg minuteCmd.p1 minuteCmd.p2 t).2 < 1024) ∧
    (∀ x y : ℝ, (x - 512) ^ 2 + (y - 512) ^ 2 ≤ 40 ^ 2 →
      0 ≤ x ∧ x < 1024 ∧ 0 ≤ y ∧ y < 1024) ∧
    (∀ tw th : ℤ, 0 ≤ tw → tw ≤ 1008 → 0 ≤ th → th ≤ 192 →
      0 ≤ text_x tw ∧ text_x tw + shadow_offset + tw ≤ 1024 ∧
      0 ≤ text_y ∧ text_y + shadow_offset + th ≤ 1024) := by
  have hcr : ((clock_radius : ℤ) : ℝ) = 380 := by norm_num [clock_radius]
  refine ⟨?_, ?_, ?_, ?_, ?_, ?_, ?_⟩
  · intro y hy0 hy1 t ht0 ht1
    have hx : (seg (gradientLine y).p1 (gradientLine y).p2 t).1 = 1024 * t := by
      show (1 - t) * 0 + t * ((size : ℤ) : ℝ) = 1024 * t
      norm_num [size]; ring
    have hyc : (seg (gradientLine y).p1 (gradientLine y).p2 t).2 = (y : ℝ) := by
      show (1 - t) * (y : ℝ) + t * (y : ℝ) = (y : ℝ)
      ring
    have hyr0 : (0 : ℝ) ≤ (y : ℝ) := by exact_mod_cast hy0
    have hyr1 : (y : ℝ) < 1024 := by exact_mod_cast hy1
    rw [hx, hyc]
    refine ⟨by nlinarith, by nlinarith, hyr0, hyr1⟩
  · intro x y h
    rw [hcr] at h
    exact disk_bounds (by norm_num) (by norm_num) h
  · intro i _ t ht0 ht1
    have e1 : (seg (markerCmd i).p1 (markerCmd i).p2 t).1
        = 512 + (350 - 50 * t) * Real.cos (marker_angle i) := by
      rw [markerCmd_p1_eq, markerCmd_p2_eq]
      show (1 - t) * _ + t * _ = _
      ring
    have e2 : (seg (markerCmd i).p1 (markerCmd i).p2 t).2
        = 512 + (350 - 50 * t) * Real.sin (marker_angle i) := by
      rw [markerCmd_p1_eq, markerCmd_p2_eq]
      show (1 - t) * _ + t * _ = _
      ring
    rw [e1, e2]
    have h1 := radial_point_bounds (L := 350 - 50 * t) (by linarith) (by linarith)
      (Real.neg_one_le_cos (marker_angle i)) (Real.cos_le_one (marker_angle i))
    have h2 := radial_point_bounds (L := 350 - 50 * t) (by linarith) (by linarith)
      (Real.neg_one_le_sin (marker_angle i)) (Real.sin_le_one (marker_angle i))
    exact ⟨h1.1, h1.2, h2.1, h2.2⟩
  · intro t ht0 ht1
    have e1 : (seg hourCmd.p1 hourCmd.p2 t).1
        = 512 + (180 * t) * Real.cos hour_angle := by
      show (1 - t) * ((center : ℤ) : ℝ) + t * hour_x = _
      rw [center_cast]
      unfold hour_x hour_length
      rw [center_cast]
      ring
    have e2 : (seg hourCmd.p1 hourCmd.p2 t).2
        = 512 + (180 * t) * Real.sin hour_angle := by
      show (1 - t) * ((center : ℤ) : ℝ) + t * hour_y = _
      rw [center_cast]
      unfold hour_y hour_length
      rw [center_cast]
      ring
    rw [e1, e2]
    have h1 := radial_point_bounds (L := 180 * t) (by linarith) (by linarith)
      (Real.neg_one_le_cos hour_angle) (Real.cos_le_one hour_angle)
    have h2 := radial_point_bounds (L := 180 * t) (by linarith) (by linarith)
      (Real.neg_one_le_sin hour_angle) (Real.sin_le_one hour_angle)
    exact ⟨h1.1, h1.2, h2.1, h2.2⟩
  · intro t ht0 ht1
    have e1 : (seg minuteCmd.p1 minuteCmd.p2 t).1
        = 512 + (260 * t) * Real.cos minute_angle := by
      show (1 - t) * ((center : ℤ) : ℝ) + t * minute_x = _
      rw [center_cast]
      unfold minute_x minute_length
      rw [center_cast]
      ring
    have e2 : (seg minuteCmd.p1 minuteCmd.p2 t).2
        = 512 + (260 * t) * Real.sin minute_angle := by
      show (1 - t) * ((center : ℤ) : ℝ) + t * minute_y = _
      rw [center_cast]
      unfold minute_y minute_length
      rw [center_cast]
      ring
    rw [e1, e2]
    have h1 := radial_point_bounds (L := 260 * t) (by linarith) (by linarith)
      (Real.neg_one_le_cos minute_angle) (Real.cos_le_one minute_angle)
    have h2 := radial_point_bounds (L := 260 * t) (by linarith) (by linarith)
      (Real.neg_one_le_sin minute_angle) (Real.sin_le_one minute_angle)
    exact ⟨h1.1, h1.2, h2.1, h2.2⟩
  · intro x y h
    exact disk_bounds (by norm_num) (by norm_num) h
  · intro tw th htw0 htw1 hth0 hth1
    unfold text_x text_y shadow_offset size
    rw [Int.fdiv_eq_ediv _ (by norm_num)]
    omega

theorem fixed_primitives_within_bounds_witness :
    ((0 : ℝ) - 512) ^ 2 + ((512 : ℝ) - 512) ^ 2 ≤ 40 ^ 2 ∨
    (0 ≤ (512 : ℝ) ∧ (512 : ℝ) < 1024 ∧ 0 ≤ (512 : ℝ) ∧ (512 : ℝ) < 1024 ∧
      0 ≤ text_x 100 ∧ text_x 100 + shadow_offset + 100 ≤ 1024) :=
  Or.inr
    ⟨(fixed_primitives_within_bounds.2.2.2.2.2.1 512 512 (by norm_num)).1,
     (fixed_primitives_within_bounds.2.2.2.2.2.1 512 512 (by norm_num)).2.1,
     (fixed_primitives_within_bounds.2.2.2.2.2.1 512 512 (by norm_num)).2.2.1,
     (fixed_primitives_within_bounds.2.2.2.2.2.1 512 512 (by norm_num)).2.2.2,
     (fixed_primitives_within_bounds.2.2.2.2.2.2 100 100 (by norm_num) (by norm_num)
       (by norm_num) (by norm_num)).1,
     (fixed_primitives_within_bounds.2.2.2.2.2.2 100 100 (by norm_num) (by norm_num)
       (by norm_num) (by norm_num)).2.1⟩

/-! ### Text overlay, font cascade and save (source lines 63-99)

The environment-dependent outcomes of this step — which font files load,
what bounding box the loaded font reports for the text, and which PIL
calls raise — are collected in a `FontEnv`; the rest of the environment
(`Env.unreadEnv`) is never read by the script.  A draw call either raises
before mutating the canvas or completes; the two `draw.text` calls are
recorded as operations so that the saved image content can be compared. -/

def sfFontPath : String := "/System/Library/Fonts/SFCompact.ttf"

def helveticaFontPath : String := "/System/Library/Fonts/Helvetica.ttc"

def font_size : ℤ := 180

/-- The two font file paths the script tries, in source order
(lines 68 and 71). -/
def fontPathsTried : List String := [sfFontPath, helveticaFontPath]

inductive FontChoice where
  | truetype (path : String)
  | defaultFont
deriving DecidableEq

/-- The environment-dependent outcomes of the text-overlay step. -/
structure FontEnv where
  /-- whether `ImageFont.truetype` succeeds at a given path -/
  loads : String → Bool
  /-- whether `ImageFont.load_default()` raises (line 73) -/
  defaultRaises : Bool
  /-- whether `draw.textbbox` raises (line 78) -/
  bboxRaises : Bool
  /-- whether the shadow `draw.text` raises (lines 87-88) -/
  shadowRaises : Bool
  /-- whether the main `draw.text` raises (line 91) -/
  mainRaises : Bool
  /-- the bounding box `draw.textbbox((0,0), "AT", font)` reports -/
  bboxOf : FontChoice → ℤ × ℤ × ℤ × ℤ

/-- The whole environment: the script reads only the font part. -/
structure Env where
  fontEnv : FontEnv
  unreadEnv : ℕ

/-- The nested font `try/except` cascade (source lines 67-73): try
SFCompact, then Helvetica, then `load_default()`; an exception from
`load_default` itself escapes to the outer handler. -/
def loadFont (fe : FontEnv) : Except Unit FontChoice :=
  if fe.loads sfFontPath then Except.ok (FontChoice.truetype sfFontPath)
  else if fe.loads helveticaFontPath then Except.ok (FontChoice.truetype helveticaFontPath)
  else if fe.defaultRaises then Except.error ()
  else Except.ok FontChoice.defaultFont

/-- The cascade as the specification words it: an ordered list of
candidate paths, the first successful load wins, and the built-in default
font is used only when every path fails. -/
def fontCascadeSpec (fe : FontEnv) : FontChoice :=
  match fontPathsTried.find? fe.loads with
  | some p => FontChoice.truetype p
  | none => FontChoice.defaultFont

/-- A `draw.text` call that completed. -/
inductive TextOp where
  | shadowText (pos : ℤ × ℤ) (font : FontChoice)
  | mainText (pos : ℤ × ℤ) (font : FontChoice)
deriving DecidableEq

/-- The diagnostic line of the outer handler (source line 94); the
exception text is appended to it. -/
def errLine : String := "Could not add text"

/-- The success line (source line 99). -/
def savedLine : String := "App icon saved to: " ++ output_path

/-- The text-overlay step (source lines 64-94): the completed `draw.text`
operations and the lines printed.  On any exception the outer handler
prints the diagnostic and execution continues; operations completed
before the exception are kept (the canvas is not rolled back). -/
def textStep (fe : FontEnv) : List TextOp × List String :=
  match loadFont fe with
  | Except.error _ => ([], [errLine])
  | Except.ok f =>
    if fe.bboxRaises then ([], [errLine])
    else
      let bb := fe.bboxOf f
      let text_width := bb.2.2.1 - bb.1
      let tx := text_x text_width
      if fe.shadowRaises then ([], [errLine])
      else if fe.mainRaises then
        ([TextOp.shadowText (tx + shadow_offset, text_y + shadow_offset) f], [errLine])
      else
        ([TextOp.shadowText (tx + shadow_offset, text_y + shadow_offset) f,
          TextOp.mainText (tx, text_y) f], [])

/-- The observable result of one run: canvas mode and dimensions, the
completed text operations, the console lines, and the save. -/
structure RenderResult where
  mode : String
  imgSize : ℤ × ℤ
  textOps : List TextOp
  stdout : List String
  saved : Bool
  savedPath : String

/-- The whole script as a function of the font environment alone. -/
def renderWithFont (fe : FontEnv) : RenderResult :=
  let r := textStep fe
  { mode := "RGB", imgSize := (size, size), textOps := r.1,
    stdout := r.2 ++ [savedLine], saved := true, savedPath := output_path }

/-- The whole script (source lines 1-99): it reads the environment only
through its font part. -/
def script (e : Env) : RenderResult := renderWithFont e.fontEnv

/-- Whether an exception is raised somewhere inside the text-overlay
step's outer `try` (font load, measurement, or either text draw). -/
def raisedDuringOverlay (fe : FontEnv) : Bool :=
  match loadFont fe with
  | Except.error _ => true
  | Except.ok _ => fe.bboxRaises || fe.shadowRaises || fe.mainRaises

lemma script_eq_of_fontEnv_eq {e1 e2 : Env} (h : e1.fontEnv = e2.fontEnv) :
    script e1 = script e2 := by
  unfold script
  rw [h]

/-- A benign environment: no font file present, nothing raises. -/
def feDefaultOk : FontEnv :=
  { loads := fun _ => false, defaultRaises := false, bboxRaises := false,
    shadowRaises := false, mainRaises := false, bboxOf := fun _ => (0, 0, 0, 0) }

/-- The environment in which only the final (main) `draw.text` raises. -/
def feMainRaises : FontEnv :=
  { loads := fun _ => true, defaultRaises := false, bboxRaises := false,
    shadowRaises := false, mainRaises := true, bboxOf := fun _ => (0, 0, 100, 100) }

/-- C7: on every run the produced image is 1024x1024 in RGB mode and is
written to the fixed output path; no environment or code path varies
this. -/
theorem output_always_1024_rgb (e : Env) :
    (script e).mode = "RGB" ∧ (script e).imgSize = (1024, 1024) ∧
    (script e).saved = true ∧ (script e).savedPath = output_path :=
  ⟨rfl, rfl, rfl, rfl⟩

/-- C9: the script's observable output is a deterministic function of the
fixed constants and the font-environment outcome: two runs whose font
environments agree produce identical results, whatever the rest of the
environment does — in particular two runs in identical environments are
byte-identical. -/
theorem output_deterministic_given_font_env (e1 e2 : Env)
    (h : e1.fontEnv = e2.fontEnv) : script e1 = script e2 :=
  script_eq_of_fontEnv_eq h

theorem output_deterministic_given_font_env_witness :
    script ⟨feDefaultOk, 0⟩ = script ⟨feDefaultOk, 1⟩ :=
  output_deterministic_given_font_env ⟨feDefaultOk, 0⟩ ⟨feDefaultOk, 1⟩ rfl

/-- C5: the font lookup tries exactly the two platform font paths in
source order, the first successful load wins, the built-in default font
is used only when both fail, and the script's output depends on the
environment only through its font part. -/
theorem font_cascade_two_paths_first_wins :
    fontPathsTried = [sfFontPath, helveticaFontPath] ∧
    fontPathsTried.length = 2 ∧
    (∀ fe : FontEnv, fe.defaultRaises = false →
      loadFont fe = Except.ok (fontCascadeSpec fe)) ∧
    (∀ e1 e2 : Env, e1.fontEnv = e2.fontEnv → script e1 = script e2) := by
  refine ⟨rfl, rfl, ?_, fun _ _ h => script_eq_of_fontEnv_eq h⟩
  intro fe hdr
  cases h1 : fe.loads sfFontPath <;> cases h2 : fe.loads helveticaFontPath <;>
    simp [loadFont, fontCascadeSpec, fontPathsTried, List.find?, h1, h2, hdr]

theorem font_cascade_two_paths_first_wins_witness :
    feDefaultOk.defaultRaises = false ∧
    loadFont feDefaultOk = Except.ok (fontCascadeSpec feDefaultOk) ∧
    script ⟨feDefaultOk, 0⟩ = script ⟨feDefaultOk, 1⟩ :=
  ⟨rfl, font_cascade_two_paths_first_wins.2.2.1 feDefaultOk rfl,
   font_cascade_two_paths_first_wins.2.2.2 ⟨feDefaultOk, 0⟩ ⟨feDefaultOk, 1⟩ rfl⟩

/-- C3, counterexample: in the environment where only the final (main)
`draw.text` raises, the exception is caught and the script saves — but
the saved canvas is not free of text: the shadow draw had already
completed, so the output is a partially texted image. -/
theorem overlay_exception_no_text_claim_false :
    raisedDuringOverlay feMainRaises = true ∧
    (script ⟨feMainRaises, 0⟩).saved = true ∧
    (script ⟨feMainRaises, 0⟩).textOps
      = [TextOp.shadowText (text_x 100 + shadow_offset, text_y + shadow_offset)
          (FontChoice.truetype sfFontPath)] ∧
    (script ⟨feMainRaises, 0⟩).textOps ≠ [] :=
  ⟨rfl, rfl, rfl, by decide⟩

/-- C3, amended: every exception raised inside the text-overlay step
(font load, measurement, or either text draw) is caught, a one-line
diagnostic is printed, and the script still completes and saves the
canvas; no completed text overlay is on it — the text operations are
either none at all or, when only the final draw raised, the shadow draw
alone (the step's mutations are not rolled back). -/
theorem overlay_exception_caught_and_saved (e : Env)
    (hr : raisedDuringOverlay e.fontEnv = true) :
    (script e).saved = true ∧
    (script e).stdout = [errLine, savedLine] ∧
    ((script e).textOps = [] ∨
      ∃ p f, (script e).textOps = [TextOp.shadowText p f]) := by
  have key : textStep e.fontEnv = ([], [errLine]) ∨
      ∃ p f, textStep e.fontEnv = ([TextOp.shadowText p f], [errLine]) := by
    unfold raisedDuringOverlay at hr
    cases hl : loadFont e.fontEnv with
    | error u =>
      left
      unfold textStep
      rw [hl]
    | ok f =>
      rw [hl] at hr
      simp only [Bool.or_eq_true] at hr
      cases hb : e.fontEnv.bboxRaises with
      | true =>
        left
        unfold textStep
        rw [hl]
        simp [hb]
      | false =>
        cases hs : e.fontEnv.shadowRaises with
        | true =>
          left
          unfold textStep
          rw [hl]
          simp [hb, hs]
        | false =>
          cases hm : e.fontEnv.mainRaises with
          | true =>
            right
            refine ⟨(text_x ((e.fontEnv.bboxOf f).2.2.1 - (e.fontEnv.bboxOf f).1)
              + shadow_offset, text_y + shadow_offset), f, ?_⟩
            unfold textStep
            rw [hl]
            simp [hb, hs, hm]
          | false =>
            rw [hb, hs, hm] at hr
            simp at hr
  obtain hk | ⟨p, f, hk⟩ := key
  · refine ⟨rfl, ?_, Or.inl ?_⟩
    · show (textStep e.fontEnv).2 ++ [savedLine] = _
      rw [hk]
      rfl
    · show (textStep e.fontEnv).1 = []
      rw [hk]
  · refine ⟨rfl, ?_, Or.inr ⟨p, f, ?_⟩⟩
    · show (textStep e.fontEnv).2 ++ [savedLine] = _
      rw [hk]
      rfl
    · show (textStep e.fontEnv).1 = _
      rw [hk]

theorem overlay_exception_caught_and_saved_witness :
    raisedDuringOverlay feMainRaises = true ∧
    ((script ⟨feMainRaises, 0⟩).saved = true ∧
     (script ⟨feMainRaises, 0⟩).stdout = [errLine, savedLine] ∧
     ((script ⟨feMainRaises, 0⟩).textOps = [] ∨
       ∃ p f, (script ⟨feMainRaises, 0⟩).textOps = [TextOp.shadowText p f])) :=
  ⟨by decide, overlay_exception_caught_and_saved ⟨feMainRaises, 0⟩ (by decide)⟩
